import Mathlib

/-!
Verification of the telequery retrieval pipeline.

This file gives a shallow embedding of the parts of the repository that the
claims are about: the search engine (`src/tools/search.py`), the message
contextualizer (`src/indexing/contextualizer.py`), the expansion orchestrator
(`src/services/expansion_service.py`) and the query agent
(`src/agent/telequery_agent.py`), together with theorems about their
specified behaviour.

Conventions of the embedding:
- Python floats are modelled as rationals; all distances involved are exact
  decimal constants compared with `<=` / `>`, for which the rational model is
  faithful.
- Database sessions are modelled by explicit state passing: a store is a list
  of rows, a SQL `IN` fetch is a filter, and a committed insert appends.
- The two external LLM calls (expansion generation, answer generation) are
  oracles: their outcome is an input of the modelled function, including the
  possibility of raised exceptions and malformed output.
- Python `datetime` values only flow through the modelled code unchanged, so
  they are modelled as `Nat` ticks.
-/

namespace Telequery

/-- A row of the `messages` table as fetched by the raw SQL in
`search_relevant_messages`; only the columns that the search path reads are
modelled.  `telegram_id` is the integer message identifier column (`row[1]`),
`chat_id` is `row[2]`, `text` is `row[3]`, `sender_id` is `row[5]`,
`sender_name` is `row[6]`, `telegram_date` is `row[8]` and
`reply_to_message_id` is `row[13]`. -/
structure DBRow where
  telegram_id : Nat
  chat_id : Nat
  text : Option String
  sender_id : Option Nat
  sender_name : Option String
  telegram_date : Nat
  reply_to_message_id : Option Nat
  deriving DecidableEq

/-- `TelegramMessage` from `src/models/database.py`. -/
structure TelegramMessage where
  message_id : String
  chat_id : String
  user_id : String
  sender_name : String
  text : String
  timestamp : Nat
  reply_to_message_id : Option String
  deriving DecidableEq

/-- `MessageWithScore` from `src/models/agent.py`. -/
structure MessageWithScore where
  message : TelegramMessage
  relevance_score : ℚ
  expanded_text : Option String
  deriving DecidableEq

/-- `SearchToolOutput` from `src/models/agent.py`. -/
structure SearchToolOutput where
  messages : List TelegramMessage
  total_found : Nat
  messages_with_scores : Option (List MessageWithScore)
  rewritten_query : Option String
  deriving DecidableEq

/-- A row of the `message_expansions` table (`MessageExpansion` in
`src/database/expansion_schema.py`).  `message_id` is the primary key; the
`created_at` column is filled by an external clock default and no modelled
code reads it, so it is omitted. -/
structure MessageExpansion where
  message_id : String
  expanded_text : String
  model_used : String
  deriving DecidableEq

/-- Python `x or default` on an optional string: `None` and `""` are falsy. -/
def pyStrOrDefault (s : Option String) (d : String) : String :=
  match s with
  | some t => if t = "" then d else t
  | none => d

/-- Construction of a `TelegramMessage` from a fetched row, as in
`search_relevant_messages` (search.py lines 343-351).  Python truthiness on
`db_message.sender_id` and `db_message.reply_to_message_id` treats `0` and
`None` alike, and `str` on an integer column is `Nat.repr`. -/
def toTelegramMessage (row : DBRow) : TelegramMessage where
  message_id := Nat.repr row.telegram_id
  chat_id := Nat.repr row.chat_id
  user_id :=
    match row.sender_id with
    | some sid => if sid = 0 then "unknown" else Nat.repr sid
    | none => "unknown"
  sender_name := pyStrOrDefault row.sender_name "Unknown"
  text := pyStrOrDefault row.text ""
  timestamp := row.telegram_date
  reply_to_message_id :=
    match row.reply_to_message_id with
    | some rid => if rid = 0 then none else some (Nat.repr rid)
    | none => none

/-- One candidate returned by the vector-index query: the `message_id`
metadata entry together with its cosine distance. -/
structure Candidate where
  message_id : String
  distance : ℚ
  deriving DecidableEq

/-- `DISTANCE_THRESHOLD = 0.75` in `search_relevant_messages` (search.py line
267), written as a normalised rational so that it computes. -/
def DISTANCE_THRESHOLD : ℚ := mkRat 3 4

/-- The threshold-filtering loop of `search_relevant_messages` (search.py
lines 271-284): a candidate is skipped exactly when
`distance > DISTANCE_THRESHOLD`. -/
def thresholdFilter (cands : List Candidate) : List Candidate :=
  cands.filter (fun c => !(decide (DISTANCE_THRESHOLD < c.distance)))

/-- The `message_ids` list accumulated by the filtering loop. -/
def retainedIds (cands : List Candidate) : List String :=
  (thresholdFilter cands).map (fun c => c.message_id)

/-- The `message_scores` dict built in debug mode: for each retained
candidate, key `message_id` is assigned `1.0 - distance` (search.py line
284).  The dict is modelled as its assignment sequence. -/
def messageScores (cands : List Candidate) : List (String × ℚ) :=
  (thresholdFilter cands).map (fun c => (c.message_id, 1 - c.distance))

/-- Lookup in a dict modelled as its assignment sequence: a later assignment
to the same key overwrites an earlier one, so lookup takes the last binding;
`d` is the `dict.get` default. -/
def dictGet (l : List (String × ℚ)) (k : String) (d : ℚ) : ℚ :=
  match l.reverse.find? (fun p => p.1 == k) with
  | some p => p.2
  | none => d

/-- The Unicode decimal-digit property (category Nd), which is what Python
`int(...)` accepts per character.  The Unicode table is modelled by a
representative fragment: the ASCII digits together with the Arabic-Indic
digit block U+0660 to U+0669 as a non-ASCII decimal block. -/
def isPyDecimalChar (c : Char) : Bool :=
  c.isDigit || (0x660 ≤ c.toNat && c.toNat ≤ 0x669)

/-- The per-character test behind Python `str.isdigit`
(Numeric_Type = Digit or Decimal): a strict superset of the decimal digits,
modelled by the decimal fragment above together with the superscript digits
one, two and three as representative digit-but-not-decimal characters.  The
facts the development uses are that every decimal character is a digit
character and that the inclusion is strict. -/
def isPyDigitChar (c : Char) : Bool :=
  isPyDecimalChar c || c = '¹' || c = '²' || c = '³'

/-- Python `str.isdigit`: true iff the string is nonempty and every character
has the digit property (decimal or not). -/
def pyIsDigit (s : String) : Bool :=
  !s.data.isEmpty && s.data.all isPyDigitChar

/-- The numeric value of a decimal-digit character. -/
def decimalVal (c : Char) : Nat :=
  if c.isDigit then c.toNat - Char.toNat '0' else c.toNat - 0x660

/-- Python `int(...)` applied to a candidate identifier: succeeds, with the
base-10 value, exactly on nonempty strings of decimal-digit characters, and
raises `ValueError` (modelled as `none`) otherwise — in particular on
digit-property strings such as "²" that pass `str.isdigit`. -/
def pyIntOpt (s : String) : Option Nat :=
  if !s.data.isEmpty && s.data.all isPyDecimalChar then
    some (s.data.foldl (fun n c => n * 10 + decimalVal c) 0)
  else none

/-- The `int_message_ids` comprehension of `search_relevant_messages`
(search.py line 290): identifiers failing `isdigit` are dropped before
conversion, the survivors are converted with `int`.  The `filterMap` is the
total projection of that comprehension: on an identifier where `int` raises
(see `searchConversionRaises`) the real comprehension aborts the whole search
with the `ValueError` instead of producing a list at all. -/
def intMessageIds (messageIds : List String) : List Nat :=
  (messageIds.filter pyIsDigit).filterMap pyIntOpt

/-- Whether the conversion comprehension at search.py line 290 raises
`ValueError` for the given candidate list: true iff some threshold survivor
passes the `isdigit` guard but is rejected by `int(...)`. -/
def searchConversionRaises (cands : List Candidate) : Bool :=
  ((retainedIds cands).filter pyIsDigit).any (fun mid => (pyIntOpt mid).isNone)

/-- The raw SQL fetch `SELECT * FROM messages WHERE telegram_id IN (...)`
(search.py lines 292-295).  The row order of the result is whatever order the
database enumerates, here the order of `db`. -/
def fetchRows (db : List DBRow) (ids : List Nat) : List DBRow :=
  db.filter (fun r => ids.contains r.telegram_id)

/-- Lookup of an expansion row by message identifier, as done per result in
debug mode (search.py lines 359-363). -/
def expLookup (expStore : List MessageExpansion) (mid : String) : Option String :=
  (expStore.find? (fun e => e.message_id == mid)).map (fun e => e.expanded_text)

/-- The hydration join of `search_relevant_messages` (search.py lines
340-352): iterate the ranked `message_ids`, take the first fetched row whose
`str(telegram_id)` equals the identifier, and drop identifiers with no row. -/
def hydrate (messageIds : List String) (dbMessages : List DBRow) : List TelegramMessage :=
  messageIds.filterMap (fun mid =>
    (dbMessages.find? (fun r => Nat.repr r.telegram_id == mid)).map toTelegramMessage)

/-- The debug variant of the same join (search.py lines 354-369), which
additionally attaches the relevance score and the expansion lookup. -/
def hydrateDebug (messageIds : List String) (dbMessages : List DBRow)
    (scores : List (String × ℚ)) (expStore : List MessageExpansion) :
    List MessageWithScore :=
  messageIds.filterMap (fun mid =>
    (dbMessages.find? (fun r => Nat.repr r.telegram_id == mid)).map (fun r =>
      { message := toTelegramMessage r
        relevance_score := dictGet scores mid 0
        expanded_text := expLookup expStore mid }))

/-- `MessageSearchTool.search_relevant_messages` (search.py lines 239-380)
from the point where the vector-index response is in hand.  `cands` is the
ranked candidate list returned by `collection.query`, `db` the `messages`
table, `expStore` the expansion table, and `rewrittenQuery` the result of the
query-rewrite call.  An empty vector response returns the early empty output
(lines 261-262). -/
def search_relevant_messages (debug : Bool) (rewrittenQuery : String)
    (cands : List Candidate) (db : List DBRow) (expStore : List MessageExpansion) :
    SearchToolOutput :=
  if cands.isEmpty then
    { messages := [], total_found := 0, messages_with_scores := none,
      rewritten_query := none }
  else
    let messageIds := retainedIds cands
    let scores := if debug then messageScores cands else []
    let dbMessages := fetchRows db (intMessageIds messageIds)
    let msgs := hydrate messageIds dbMessages
    { messages := msgs
      total_found := msgs.length
      messages_with_scores :=
        if debug then some (hydrateDebug messageIds dbMessages scores expStore) else none
      rewritten_query := some rewrittenQuery }

/-- A source message as consumed by `expand_batch_and_save`; only the fields
that function reads are modelled.  `message_id` is the stringified
`telegram_id` of the row and `text` is the nullable `text` column. -/
structure SourceMsg where
  message_id : String
  text : Option String
  deriving DecidableEq

/-- One element of the `expansions` list parsed from the model's JSON
response.  Either key may be absent (`none`), in which case accessing it
raises a `KeyError` caught by the per-item handler.  The `str(...)` coercion
applied to the `message_id` value is total and already folded in. -/
structure ExpansionData where
  message_id : Option String
  expanded_text : Option String
  deriving DecidableEq

/-- Outcome of the expansion model call in `expand_batch_and_save`:
the call itself may raise, the response may fail `json.loads`, or it parses
to a list of expansion objects (an absent `expansions` key parses to `[]`)
together with the model label of the response. -/
inductive LLMResult where
  | exc
  | badJSON
  | parsed (expansions : List ExpansionData) (model : String)
  deriving DecidableEq

/-- One iteration of the save loop of `expand_batch_and_save`
(contextualizer.py lines 160-182): extract the message identifier, skip if a
row with that identifier already exists (the existence check sees rows added
earlier in the same loop, since the query autoflushes pending inserts),
otherwise insert a new row and count it.  A `KeyError` on either field is
caught by the per-item handler and skips the item. -/
def saveExpansion (modelLabel : String) (acc : Nat × List MessageExpansion)
    (ed : ExpansionData) : Nat × List MessageExpansion :=
  match ed.message_id with
  | none => acc
  | some mid =>
    if acc.2.any (fun e => e.message_id == mid) then acc
    else
      match ed.expanded_text with
      | none => acc
      | some txt => (acc.1 + 1, acc.2 ++ [⟨mid, txt, modelLabel⟩])

/-- Truthiness of `msg.text and msg.text.strip()`: true iff the text is
present, and nonempty after stripping whitespace, i.e. iff it contains a
non-whitespace character. -/
def pyHasContent (t : Option String) : Bool :=
  match t with
  | none => false
  | some s => s.data.any (fun c => !c.isWhitespace)

/-- `MessageContextualizer.expand_batch_and_save` (contextualizer.py lines
123-190).  `store` is the expansion table before the call; the result is the
returned saved count and the table after the final commit.  An empty batch or
a batch with no non-blank texts returns early; a raised model call or a JSON
parse failure returns `0` from the exception handlers with nothing saved. -/
def expand_batch_and_save (batch : List SourceMsg) (result : LLMResult)
    (store : List MessageExpansion) : Nat × List MessageExpansion :=
  if batch.isEmpty then (0, store)
  else if (batch.filter (fun m => pyHasContent m.text)).isEmpty then (0, store)
  else
    match result with
    | .exc => (0, store)
    | .badJSON => (0, store)
    | .parsed exps model => exps.foldl (saveExpansion model) (0, store)

/-- The expansion list carried by a model-call outcome (empty when the call
raised or the response did not parse). -/
def responseExpansions : LLMResult → List ExpansionData
  | .exc => []
  | .badJSON => []
  | .parsed exps _ => exps

/-- `overlap_size` in `ExpansionService.process_new_messages`
(expansion_service.py line 119). -/
def overlapSize (batchSize : Nat) : Nat := min 10 (batchSize / 5)

/-- The batch-window loop of `ExpansionService.process_new_messages`
(expansion_service.py lines 120-151), abstracted to the sequence of
half-open index windows it processes over a pending list of length `n`.
Each iteration takes `batch_end = min (start + batchSize) n`, breaks if the
slice is empty, processes the window, breaks if the end reached `n`, and
otherwise advances to `batch_end - overlap`, clamped to `batch_end` when that
would be nonpositive. -/
def batchWindowsAux (n batchSize : Nat) (start : Nat) : List (Nat × Nat) :=
  if h : start < n then
    if he : min (start + batchSize) n ≤ start then []
    else if hn : n ≤ min (start + batchSize) n then [(start, min (start + batchSize) n)]
    else
      (start, min (start + batchSize) n) ::
        batchWindowsAux n batchSize
          (if min (start + batchSize) n - overlapSize batchSize = 0 then
            min (start + batchSize) n
           else min (start + batchSize) n - overlapSize batchSize)
  else []
termination_by n - start
decreasing_by
  have he' : start < min (start + batchSize) n := Nat.lt_of_not_le he
  have hn' : min (start + batchSize) n < n := Nat.lt_of_not_le hn
  have hbs : 1 ≤ batchSize := by
    rcases Nat.eq_zero_or_pos batchSize with hb | hb
    · exfalso
      have h2 : min (start + batchSize) n ≤ start := by simp [hb]
      omega
    · exact hb
  have hov : overlapSize batchSize < batchSize :=
    lt_of_le_of_lt (Nat.min_le_right _ _) (Nat.div_lt_self (by omega) (by omega))
  have hee : min (start + batchSize) n = start + batchSize := by
    by_cases hc : start + batchSize ≤ n
    · exact Nat.min_eq_left hc
    · exfalso
      have h2 : min (start + batchSize) n = n := Nat.min_eq_right (le_of_not_le hc)
      omega
  split <;> omega

/-- The full window sequence of one `process_new_messages` run over `n`
pending messages with the given batch size. -/
def batchWindows (n batchSize : Nat) : List (Nat × Nat) :=
  batchWindowsAux n batchSize 0

/-- `SourceMessage` from `src/models/api.py`. -/
structure APISourceMessage where
  message_id : String
  sender : String
  timestamp : Nat
  text : String
  expanded_text : Option String
  relevance_score : Option ℚ
  deriving DecidableEq

/-- `QueryResponse` from `src/models/api.py`. -/
structure QueryResponse where
  answer_text : String
  source_messages : List APISourceMessage
  status : String
  rewritten_query : Option String
  deriving DecidableEq

/-- The fixed fallback response of the no-results branch of
`TelequeryAgent.process_query` (telequery_agent.py lines 59-64). -/
def noResultsResponse : QueryResponse where
  answer_text := "I couldn't find any relevant messages to answer your question."
  source_messages := []
  status := "no_results"
  rewritten_query := none

/-- The response built by the top-level exception handler of `process_query`
(telequery_agent.py lines 120-125): the exception message is embedded in the
answer text. -/
def errorResponse (msg : String) : QueryResponse where
  answer_text := "An error occurred while processing your query: " ++ msg
  source_messages := []
  status := "error"
  rewritten_query := none

/-- Debug-mode conversion of a scored search result to the API shape
(telequery_agent.py lines 90-100). -/
def toSourceMessageDebug (mws : MessageWithScore) : APISourceMessage where
  message_id := mws.message.message_id
  sender := mws.message.sender_name
  timestamp := mws.message.timestamp
  text := mws.message.text
  expanded_text := mws.expanded_text
  relevance_score := some mws.relevance_score

/-- Normal-mode conversion of a search result to the API shape
(telequery_agent.py lines 103-111). -/
def toSourceMessagePlain (m : TelegramMessage) : APISourceMessage where
  message_id := m.message_id
  sender := m.sender_name
  timestamp := m.timestamp
  text := m.text
  expanded_text := none
  relevance_score := none

/-- `max_context_messages` default of `TelequeryAgent`. -/
def maxContextMessages : Nat := 100

/-- `TelequeryAgent.process_query` (telequery_agent.py lines 38-125).  The
three pipeline stages that can raise are passed as oracles: the search step
(which may also raise from tool construction), the context/prompt
preparation step, and the completion call, whose successful value is the
generated answer text.  Any raised exception is caught by the single
top-level handler and converted to `errorResponse`.  The second component
counts how many times the answer-generation completion capability was
invoked. -/
def process_query (debug : Bool) (searchRes : Except String SearchToolOutput)
    (promptRes : Except String Unit) (llmRes : Except String String) :
    QueryResponse × Nat :=
  match searchRes with
  | .error e => (errorResponse e, 0)
  | .ok sr =>
    if sr.messages.isEmpty then (noResultsResponse, 0)
    else
      match promptRes with
      | .error e => (errorResponse e, 0)
      | .ok _ =>
        match llmRes with
        | .error e => (errorResponse e, 1)
        | .ok content =>
          let contextMessages := sr.messages.take maxContextMessages
          let sourceMessages :=
            match debug, sr.messages_with_scores with
            | true, some mws =>
              if mws.isEmpty then contextMessages.map toSourceMessagePlain
              else (mws.take maxContextMessages).map toSourceMessageDebug
            | true, none => contextMessages.map toSourceMessagePlain
            | false, _ => contextMessages.map toSourceMessagePlain
          ({ answer_text := content
             source_messages := sourceMessages
             status := "success"
             rewritten_query := if debug then sr.rewritten_query else none }, 1)

def sampleDb : List DBRow :=
  [⟨1, 10, some "alpha", some 7, some "Ann", 100, none⟩,
   ⟨2, 10, some "beta", some 8, some "Bob", 101, none⟩,
   ⟨3, 10, some "gamma", some 7, some "Ann", 102, none⟩,
   ⟨4, 10, some "delta", some 8, some "Bob", 103, none⟩]

def sampleCands : List Candidate :=
  [⟨"1", mkRat 1 10⟩, ⟨"2", mkRat 1 2⟩, ⟨"3", mkRat 19 25⟩, ⟨"4", mkRat 6 5⟩]




lemma digitChar_isDigit (n : Nat) (h : n < 10) : (Nat.digitChar n).isDigit = true := by
  interval_cases n <;> decide

lemma toDigitsCore_all_digits (fuel : Nat) :
    ∀ (n : Nat) (ds : List Char), (∀ c ∈ ds, c.isDigit = true) →
      ∀ c ∈ Nat.toDigitsCore 10 fuel n ds, c.isDigit = true := by
  induction fuel with
  | zero => intro n ds hds c hc; exact hds c hc
  | succ f ih =>
    intro n ds hds c hc
    simp only [Nat.toDigitsCore] at hc
    have hcons : ∀ x ∈ Nat.digitChar (n % 10) :: ds, x.isDigit = true := by
      intro x hx
      rcases List.mem_cons.mp hx with rfl | hx2
      · exact digitChar_isDigit _ (Nat.mod_lt _ (by omega))
      · exact hds _ hx2
    split at hc
    · exact hcons c hc
    · exact ih _ _ hcons c hc

lemma toDigitsCore_length (fuel : Nat) :
    ∀ (n : Nat) (ds : List Char), ds.length ≤ (Nat.toDigitsCore 10 fuel n ds).length := by
  induction fuel with
  | zero => intro n ds; simp [Nat.toDigitsCore]
  | succ f ih =>
    intro n ds
    simp only [Nat.toDigitsCore]
    split
    · simp
    · exact le_trans (by simp) (ih (n / 10) (Nat.digitChar (n % 10) :: ds))

lemma toDigits_ne_nil (n : Nat) : Nat.toDigits 10 n ≠ [] := by
  unfold Nat.toDigits
  simp only [Nat.toDigitsCore]
  split
  · simp
  · intro hcon
    have h1 := toDigitsCore_length n (n / 10) [Nat.digitChar (n % 10)]
    rw [hcon] at h1
    simp at h1

lemma isPyDigitChar_of_isDigit (c : Char) (h : c.isDigit = true) :
    isPyDigitChar c = true := by
  simp [isPyDigitChar, isPyDecimalChar, h]

lemma repr_pyIsDigit (n : Nat) : pyIsDigit (Nat.repr n) = true := by
  have hdata : (Nat.repr n).data = Nat.toDigits 10 n := rfl
  unfold pyIsDigit
  rw [hdata]
  rw [Bool.and_eq_true, Bool.not_eq_true', List.isEmpty_eq_false_iff_exists_mem]
  constructor
  · rcases List.exists_mem_of_ne_nil _ (toDigits_ne_nil n) with ⟨c, hc⟩
    exact ⟨c, hc⟩
  · rw [List.all_eq_true]
    intro c hc
    exact isPyDigitChar_of_isDigit c (toDigitsCore_all_digits (n + 1) n [] (by simp) c hc)

lemma toTelegramMessage_id (r : DBRow) :
    (toTelegramMessage r).message_id = Nat.repr r.telegram_id := rfl

lemma hydrate_map_id (ids : List String) (rows : List DBRow) :
    (hydrate ids rows).map (fun m => m.message_id)
      = ids.filter (fun mid => rows.any (fun r => Nat.repr r.telegram_id == mid)) := by
  induction ids with
  | nil => rfl
  | cons mid ids ih =>
    unfold hydrate at ih ⊢
    rw [List.filterMap_cons, List.filter_cons]
    cases hf : rows.find? (fun r => Nat.repr r.telegram_id == mid) with
    | none =>
      have hany : rows.any (fun r => Nat.repr r.telegram_id == mid) = false := by
        rw [List.any_eq_false]
        intro r hr
        simpa using List.find?_eq_none.mp hf r hr
      simp [hany, ih]
    | some r =>
      have hp := List.find?_some hf
      have hany : rows.any (fun r => Nat.repr r.telegram_id == mid) = true :=
        List.any_eq_true.mpr ⟨r, List.mem_of_find?_eq_some hf, hp⟩
      have hid : (toTelegramMessage r).message_id = mid := by
        rw [toTelegramMessage_id]; exact eq_of_beq hp
      simp [hany, ih, hid]

lemma any_congr_perm {l₁ l₂ : List DBRow} (h : l₁.Perm l₂) (p : DBRow → Bool) :
    l₁.any p = l₂.any p := by
  rw [Bool.eq_iff_iff, List.any_eq_true, List.any_eq_true]
  constructor
  · rintro ⟨x, hx, hpx⟩; exact ⟨x, h.mem_iff.mp hx, hpx⟩
  · rintro ⟨x, hx, hpx⟩; exact ⟨x, h.mem_iff.mpr hx, hpx⟩

lemma search_messages_map_id (debug : Bool) (rq : String) (cands : List Candidate)
    (db : List DBRow) (exp : List MessageExpansion) :
    (search_relevant_messages debug rq cands db exp).messages.map (fun m => m.message_id)
      = (retainedIds cands).filter
          (fun mid => (fetchRows db (intMessageIds (retainedIds cands))).any
            (fun r => Nat.repr r.telegram_id == mid)) := by
  unfold search_relevant_messages
  by_cases hc : cands.isEmpty
  · have : cands = [] := List.isEmpty_iff.mp hc
    subst this
    simp [retainedIds, thresholdFilter]
  · simp only [hc, if_false]
    exact hydrate_map_id _ _

lemma hydrateDebug_map_message (ids : List String) (rows : List DBRow)
    (scores : List (String × ℚ)) (exp : List MessageExpansion) :
    (hydrateDebug ids rows scores exp).map (fun w => w.message) = hydrate ids rows := by
  induction ids with
  | nil => rfl
  | cons mid ids ih =>
    unfold hydrateDebug hydrate at ih ⊢
    rw [List.filterMap_cons, List.filterMap_cons]
    cases hf : rows.find? (fun r => Nat.repr r.telegram_id == mid) with
    | none => simpa using ih
    | some r => simpa using ih

lemma hydrateDebug_fields (ids : List String) (rows : List DBRow)
    (scores : List (String × ℚ)) (exp : List MessageExpansion) :
    ∀ w ∈ hydrateDebug ids rows scores exp,
      w.relevance_score = dictGet scores w.message.message_id 0
      ∧ w.expanded_text = expLookup exp w.message.message_id := by
  induction ids with
  | nil => intro w hw; simp [hydrateDebug] at hw
  | cons mid ids ih =>
    intro w hw
    unfold hydrateDebug at hw
    rw [List.filterMap_cons] at hw
    cases hf : rows.find? (fun r => Nat.repr r.telegram_id == mid) with
    | none =>
      rw [hf] at hw
      exact ih w hw
    | some r =>
      rw [hf] at hw
      simp only [Option.map_some'] at hw
      rcases List.mem_cons.mp hw with rfl | hw2
      · have hp := List.find?_some hf
        have hid : (toTelegramMessage r).message_id = mid := by
          rw [toTelegramMessage_id]; exact eq_of_beq hp
        constructor <;> simp [hid]
      · exact ih w hw2


/-- C1: a vector-index candidate is retained by the search engine if and only
if its cosine distance is at most the 0.75 threshold; on the synthetic
distance list [0.1, 0.5, 0.76, 1.2] exactly the first two candidates survive,
and in debug mode each retained candidate carries relevance score
`1 - distance`. -/
theorem threshold_filtering_correct :
    (∀ (cands : List Candidate) (c : Candidate),
        c ∈ thresholdFilter cands ↔ c ∈ cands ∧ c.distance ≤ DISTANCE_THRESHOLD)
    ∧ retainedIds sampleCands = ["1", "2"]
    ∧ ((search_relevant_messages true "q" sampleCands sampleDb []).messages_with_scores.getD []).map
        (fun w => (w.message.message_id, w.relevance_score))
        = [("1", 1 - mkRat 1 10), ("2", 1 - mkRat 1 2)] := by
  refine ⟨?_, by decide, by rfl⟩
  intro cands c
  simp [thresholdFilter, List.mem_filter, not_lt]

/-- C4: the hydrated search output lists messages in exactly the ranked order
of the surviving candidate identifiers; permuting the order in which the
message store returns the fetched rows never changes the output order. -/
theorem hydration_preserves_ranking :
    (∀ (debug : Bool) (rq : String) (cands : List Candidate) (db db2 : List DBRow)
        (exp : List MessageExpansion), db.Perm db2 →
        (search_relevant_messages debug rq cands db exp).messages.map (fun m => m.message_id)
          = (search_relevant_messages debug rq cands db2 exp).messages.map (fun m => m.message_id))
    ∧ (∀ (debug : Bool) (rq : String) (cands : List Candidate) (db : List DBRow)
        (exp : List MessageExpansion),
        (search_relevant_messages debug rq cands db exp).messages.map (fun m => m.message_id)
          = (retainedIds cands).filter
              (fun mid => (fetchRows db (intMessageIds (retainedIds cands))).any
                (fun r => Nat.repr r.telegram_id == mid))) := by
  constructor
  · intro debug rq cands db db2 exp hperm
    rw [search_messages_map_id, search_messages_map_id]
    apply List.filter_congr
    intro mid _
    exact any_congr_perm (hperm.filter _) _
  · intro debug rq cands db exp
    exact search_messages_map_id debug rq cands db exp

theorem hydration_preserves_ranking_witness :
    (search_relevant_messages false "q" sampleCands sampleDb []).messages.map
        (fun m => m.message_id)
      = (search_relevant_messages false "q" sampleCands sampleDb.reverse []).messages.map
        (fun m => m.message_id) :=
  hydration_preserves_ranking.1 false "q" sampleCands sampleDb sampleDb.reverse []
    (List.reverse_perm sampleDb).symm

/-- C9: with identical external responses, running the search with debug on
and off yields the same message list; debug mode additionally returns scored
entries aligned one-to-one with that list, each carrying the relevance score
from the score dict and the expansion-store lookup, while non-debug mode
returns no scored entries. -/
theorem debug_mode_parity :
    ∀ (rq : String) (cands : List Candidate) (db : List DBRow) (exp : List MessageExpansion),
      (search_relevant_messages true rq cands db exp).messages
          = (search_relevant_messages false rq cands db exp).messages
      ∧ (search_relevant_messages false rq cands db exp).messages_with_scores = none
      ∧ (cands.isEmpty = false →
          ∃ mws, (search_relevant_messages true rq cands db exp).messages_with_scores = some mws
            ∧ mws.map (fun w => w.message)
                = (search_relevant_messages true rq cands db exp).messages
            ∧ ∀ w ∈ mws,
                w.relevance_score = dictGet (messageScores cands) w.message.message_id 0
                ∧ w.expanded_text = expLookup exp w.message.message_id) := by
  intro rq cands db exp
  by_cases hc : cands.isEmpty
  · refine ⟨by simp [search_relevant_messages, hc], by simp [search_relevant_messages, hc], ?_⟩
    intro hfalse
    rw [hc] at hfalse
    exact absurd hfalse (by simp)
  · rw [Bool.not_eq_true] at hc
    refine ⟨by simp [search_relevant_messages, hc], by simp [search_relevant_messages, hc], ?_⟩
    intro _
    refine ⟨hydrateDebug (retainedIds cands) (fetchRows db (intMessageIds (retainedIds cands)))
      (messageScores cands) exp, ?_, ?_, ?_⟩
    · simp [search_relevant_messages, hc]
    · rw [hydrateDebug_map_message]
      simp [search_relevant_messages, hc]
    · exact hydrateDebug_fields _ _ _ _

theorem debug_mode_parity_witness :
    (search_relevant_messages true "q" sampleCands sampleDb []).messages
      = (search_relevant_messages false "q" sampleCands sampleDb []).messages
    ∧ ∃ mws, (search_relevant_messages true "q" sampleCands sampleDb []).messages_with_scores
        = some mws
      ∧ mws.map (fun w => w.message)
          = (search_relevant_messages true "q" sampleCands sampleDb []).messages
      ∧ ∀ w ∈ mws,
          w.relevance_score = dictGet (messageScores sampleCands) w.message.message_id 0
          ∧ w.expanded_text = expLookup [] w.message.message_id :=
  ⟨(debug_mode_parity "q" sampleCands sampleDb []).1,
   (debug_mode_parity "q" sampleCands sampleDb []).2.2 (by decide)⟩

/-- C10 counterexample: the claim that a candidate identifier that is not a
pure decimal-digit string is skipped before the integer conversion, so that
the conversion can never fail, is false.  The identifier "²" is not a
decimal-digit string, yet it passes the `isdigit` guard (so it is not
skipped and does reach the conversion), `int` rejects it, and the conversion
comprehension raises for a candidate list containing it even though the
candidate survived the distance threshold. -/
theorem nondigit_skip_counterexample :
    "²".data.all isPyDecimalChar = false
    ∧ pyIsDigit "²" = true
    ∧ "²" ∈ (retainedIds [⟨ "²", mkRat 1 10⟩]).filter pyIsDigit
    ∧ pyIntOpt "²" = none
    ∧ searchConversionRaises [⟨ "²", mkRat 1 10⟩] = true := by decide

/-- C10 amended: a candidate identifier failing the `isdigit` guard is
dropped before the integer conversion and never appears in the search
output, even if it survived threshold filtering; but the guard does not make
the conversion total: for a guard survivor the conversion succeeds exactly
when every character is a decimal digit, and a digit-but-not-decimal
identifier such as "²" makes the conversion comprehension raise, aborting
the search instead of skipping the candidate. -/
theorem nonisdigit_ids_skipped :
    (∀ (mid : String) (mids : List String), pyIsDigit mid = false →
        intMessageIds (mid :: mids) = intMessageIds mids)
    ∧ (∀ (mid : String), pyIsDigit mid = true →
        ((pyIntOpt mid).isSome = true ↔ mid.data.all isPyDecimalChar = true))
    ∧ (∀ (cands : List Candidate), searchConversionRaises cands = true ↔
        ∃ mid ∈ (retainedIds cands).filter pyIsDigit, (pyIntOpt mid).isSome = false)
    ∧ (∀ (debug : Bool) (rq : String) (cands : List Candidate) (db : List DBRow)
        (exp : List MessageExpansion) (mid : String), pyIsDigit mid = false →
        mid ∉ (search_relevant_messages debug rq cands db exp).messages.map
          (fun m => m.message_id)) := by
  refine ⟨?_, ?_, ?_, ?_⟩
  · intro mid mids hmid
    simp [intMessageIds, List.filter_cons, hmid]
  · intro mid hmid
    have hne : mid.data.isEmpty = false := by
      rcases (Bool.and_eq_true _ _).mp hmid with ⟨h1, _⟩
      exact Bool.not_eq_true' .. |>.mp h1
    constructor
    · intro h2
      by_cases hc : (!mid.data.isEmpty && mid.data.all isPyDecimalChar) = true
      · exact ((Bool.and_eq_true _ _).mp hc).2
      · rw [pyIntOpt, if_neg hc] at h2
        exact absurd h2 (by simp)
    · intro h2
      simp [pyIntOpt, hne, h2]
  · intro cands
    rw [searchConversionRaises, List.any_eq_true]
    constructor
    · rintro ⟨mid, hmem, hnone⟩
      exact ⟨mid, hmem, by simpa using hnone⟩
    · rintro ⟨mid, hmem, hnone⟩
      exact ⟨mid, hmem, by simpa using hnone⟩
  · intro debug rq cands db exp mid hmid hmem
    rw [search_messages_map_id] at hmem
    have h2 := List.of_mem_filter hmem
    rw [List.any_eq_true] at h2
    rcases h2 with ⟨r, _, hbeq⟩
    have hrep : Nat.repr r.telegram_id = mid := eq_of_beq hbeq
    rw [← hrep, repr_pyIsDigit] at hmid
    exact absurd hmid (by simp)

theorem nonisdigit_ids_skipped_witness :
    intMessageIds ["abc", "12"] = intMessageIds ["12"]
    ∧ ((pyIntOpt "12").isSome = true ↔ "12".data.all isPyDecimalChar = true)
    ∧ (searchConversionRaises [⟨ "²", mkRat 1 10⟩] = true ↔
        ∃ mid ∈ (retainedIds [⟨ "²", mkRat 1 10⟩]).filter pyIsDigit,
          (pyIntOpt mid).isSome = false)
    ∧ "abc" ∉ (search_relevant_messages false "q" [⟨"abc", mkRat 1 10⟩] sampleDb []).messages.map
        (fun m => m.message_id) :=
  ⟨nonisdigit_ids_skipped.1 "abc" ["12"] (by decide),
   nonisdigit_ids_skipped.2.1 "12" (by decide),
   nonisdigit_ids_skipped.2.2.1 [⟨ "²", mkRat 1 10⟩],
   nonisdigit_ids_skipped.2.2.2 false "q" [⟨"abc", mkRat 1 10⟩] sampleDb [] "abc" (by decide)⟩

lemma saveExpansion_step (modelLabel : String) (acc : Nat × List MessageExpansion)
    (ed : ExpansionData) :
    saveExpansion modelLabel acc ed = acc
    ∨ ∃ mid txt, ed.message_id = some mid ∧ ed.expanded_text = some txt
        ∧ acc.2.any (fun e => e.message_id == mid) = false
        ∧ saveExpansion modelLabel acc ed = (acc.1 + 1, acc.2 ++ [(⟨mid, txt, modelLabel⟩ : MessageExpansion)]) := by
  cases hmid : ed.message_id with
  | none =>
    left
    simp [saveExpansion, hmid]
  | some mid =>
    by_cases hany : acc.2.any (fun e => e.message_id == mid) = true
    · left
      simp [saveExpansion, hmid, hany]
    · cases htxt : ed.expanded_text with
      | none =>
        left
        simp [saveExpansion, hmid, hany, htxt]
      | some txt =>
        right
        exact ⟨mid, txt, rfl, rfl, by simpa using hany,
          by simp [saveExpansion, hmid, hany, htxt]⟩

lemma saveExpansion_foldl_ids (modelLabel : String) :
    ∀ (exps : List ExpansionData) (acc : Nat × List MessageExpansion)
      (e : MessageExpansion), e ∈ (exps.foldl (saveExpansion modelLabel) acc).2 →
      e ∈ acc.2 ∨ ∃ ed ∈ exps, ed.message_id = some e.message_id := by
  intro exps
  induction exps with
  | nil => intro acc e he; exact Or.inl he
  | cons ed exps ih =>
    intro acc e he
    rw [List.foldl_cons] at he
    rcases ih _ e he with hacc | ⟨ed2, hed2, hid⟩
    · rcases saveExpansion_step modelLabel acc ed with heq | ⟨mid, txt, hmid, _, _, heq⟩
      · rw [heq] at hacc
        exact Or.inl hacc
      · rw [heq] at hacc
        simp only [List.mem_append, List.mem_singleton] at hacc
        rcases hacc with h1 | h1
        · exact Or.inl h1
        · right
          refine ⟨ed, List.mem_cons_self _ _, ?_⟩
          rw [hmid]
          subst h1
          rfl
    · exact Or.inr ⟨ed2, List.mem_cons_of_mem _ hed2, hid⟩

lemma saveExpansion_foldl_grows (modelLabel : String) :
    ∀ (exps : List ExpansionData) (acc : Nat × List MessageExpansion),
      ∃ new, (exps.foldl (saveExpansion modelLabel) acc).2 = acc.2 ++ new := by
  intro exps
  induction exps with
  | nil => intro acc; exact ⟨[], by simp⟩
  | cons ed exps ih =>
    intro acc
    rw [List.foldl_cons]
    rcases saveExpansion_step modelLabel acc ed with heq | ⟨mid, txt, _, _, _, heq⟩
    · rw [heq]
      exact ih acc
    · rw [heq]
      rcases ih (acc.1 + 1, acc.2 ++ [(⟨mid, txt, modelLabel⟩ : MessageExpansion)]) with ⟨new, hnew⟩
      exact ⟨⟨mid, txt, modelLabel⟩ :: new, by simpa using hnew⟩

lemma saveExpansion_foldl_existing (modelLabel : String) (mid : String) :
    ∀ (exps : List ExpansionData) (acc : Nat × List MessageExpansion),
      acc.2.any (fun e => e.message_id == mid) = true →
      (exps.foldl (saveExpansion modelLabel) acc).2.filter (fun e => e.message_id == mid)
        = acc.2.filter (fun e => e.message_id == mid) := by
  intro exps
  induction exps with
  | nil => intro acc _; rfl
  | cons ed exps ih =>
    intro acc hany
    rw [List.foldl_cons]
    rcases saveExpansion_step modelLabel acc ed with heq | ⟨mid2, txt, _, _, hany2, heq⟩
    · rw [heq]
      exact ih acc hany
    · have hne : (mid2 == mid) = false := by
        rw [beq_eq_false_iff_ne]
        intro hcon
        subst hcon
        rw [hany] at hany2
        exact absurd hany2 (by simp)
      have hany3 : (acc.2 ++ [(⟨mid2, txt, modelLabel⟩ : MessageExpansion)]).any
          (fun e => e.message_id == mid) = true := by
        rw [List.any_append, hany]
        rfl
      rw [heq, ih (acc.1 + 1, acc.2 ++ [(⟨mid2, txt, modelLabel⟩ : MessageExpansion)]) hany3]
      show (acc.2 ++ [(⟨mid2, txt, modelLabel⟩ : MessageExpansion)]).filter (fun e => e.message_id == mid) = _
      rw [List.filter_append]
      simp [List.filter, hne]

lemma saveExpansion_foldl_nodup (modelLabel : String) :
    ∀ (exps : List ExpansionData) (acc : Nat × List MessageExpansion),
      (acc.2.map (fun e => e.message_id)).Nodup →
      ((exps.foldl (saveExpansion modelLabel) acc).2.map (fun e => e.message_id)).Nodup := by
  intro exps
  induction exps with
  | nil => intro acc h; exact h
  | cons ed exps ih =>
    intro acc hnd
    rw [List.foldl_cons]
    rcases saveExpansion_step modelLabel acc ed with heq | ⟨mid2, txt, _, _, hany2, heq⟩
    · rw [heq]
      exact ih acc hnd
    · rw [heq]
      apply ih
      show ((acc.2 ++ [(⟨mid2, txt, modelLabel⟩ : MessageExpansion)]).map (fun e => e.message_id)).Nodup
      rw [List.map_append, List.nodup_append]
      refine ⟨hnd, List.nodup_singleton _, ?_⟩
      intro x hx hx2
      simp only [List.map_cons, List.map_nil, List.mem_singleton] at hx2
      subst hx2
      rcases List.mem_map.mp hx with ⟨e, he, hid⟩
      have := List.any_eq_false.mp hany2 e he
      rw [hid] at this
      exact this (by simp)

/-- C6: when the model response fails to parse as JSON, expand_batch_and_save
returns a saved count of zero and leaves the expansion store exactly as it
was, so the batch stays pending. -/
theorem bad_json_is_noop :
    ∀ (batch : List SourceMsg) (store : List MessageExpansion),
      expand_batch_and_save batch LLMResult.badJSON store = (0, store) := by
  intro batch store
  by_cases h1 : batch.isEmpty
  · simp [expand_batch_and_save, h1]
  · by_cases h2 : (batch.filter (fun m => pyHasContent m.text)).isEmpty
    · simp [expand_batch_and_save, h1, h2]
    · simp [expand_batch_and_save, h1, h2]

/-- C2 counterexample: the claim that no expansion row is ever persisted for
an identifier outside the requested batch is false.  With batch ["1"] and a
model response containing the invented identifier "999", the call persists a
row for "999", which is not a member of the batch. -/
theorem invented_id_persisted :
    (expand_batch_and_save [⟨"1", some "hello"⟩]
        (LLMResult.parsed [⟨some "999", some "context stuff"⟩] "gpt") []).2
      = [⟨"999", "context stuff", "gpt"⟩]
    ∧ "999" ∉ ([⟨"1", some "hello"⟩] : List SourceMsg).map (fun m => m.message_id) := by
  constructor
  · rfl
  · decide

/-- C2 amended: every expansion row present after a call to
expand_batch_and_save was either already in the store or has an identifier
taken from the model response; batch membership is requested in the prompt
but not enforced, so response identifiers outside the batch are persisted
too. -/
theorem expansion_ids_come_from_response :
    ∀ (batch : List SourceMsg) (result : LLMResult) (store : List MessageExpansion)
      (e : MessageExpansion), e ∈ (expand_batch_and_save batch result store).2 →
      e ∈ store ∨ ∃ ed ∈ responseExpansions result, ed.message_id = some e.message_id := by
  intro batch result store e he
  cases result with
  | exc =>
    unfold expand_batch_and_save at he
    split at he
    · exact Or.inl he
    · split at he
      · exact Or.inl he
      · exact Or.inl he
  | badJSON =>
    unfold expand_batch_and_save at he
    split at he
    · exact Or.inl he
    · split at he
      · exact Or.inl he
      · exact Or.inl he
  | parsed exps model =>
    unfold expand_batch_and_save at he
    split at he
    · exact Or.inl he
    · split at he
      · exact Or.inl he
      · rcases saveExpansion_foldl_ids model exps (0, store) e he with h | h
        · exact Or.inl h
        · exact Or.inr h

theorem expansion_ids_come_from_response_witness :
    (⟨"999", "context stuff", "gpt"⟩ : MessageExpansion)
        ∈ ([⟨"7", "old", "m0"⟩] : List MessageExpansion)
    ∨ ∃ ed ∈ responseExpansions (LLMResult.parsed [⟨some "999", some "context stuff"⟩] "gpt"),
        ed.message_id = some "999" :=
  expansion_ids_come_from_response [⟨"1", some "hello"⟩]
    (LLMResult.parsed [⟨some "999", some "context stuff"⟩] "gpt")
    [⟨"7", "old", "m0"⟩] ⟨"999", "context stuff", "gpt"⟩ (by decide)

/-- C3: expand_batch_and_save only appends to the expansion store, preserves
uniqueness of message identifiers, and never touches an existing row: if an
identifier already has a row before the call, the rows with that identifier
are exactly the same after the call (the duplicate is silently skipped). -/
theorem expansion_write_once :
    ∀ (batch : List SourceMsg) (result : LLMResult) (store : List MessageExpansion),
      (∃ new, (expand_batch_and_save batch result store).2 = store ++ new)
      ∧ ((store.map (fun e => e.message_id)).Nodup →
          ((expand_batch_and_save batch result store).2.map (fun e => e.message_id)).Nodup)
      ∧ (∀ mid, store.any (fun e => e.message_id == mid) = true →
          (expand_batch_and_save batch result store).2.filter (fun e => e.message_id == mid)
            = store.filter (fun e => e.message_id == mid)) := by
  intro batch result store
  cases result with
  | exc =>
    unfold expand_batch_and_save
    split
    · exact ⟨⟨[], by simp⟩, fun h => h, fun mid _ => rfl⟩
    · split
      · exact ⟨⟨[], by simp⟩, fun h => h, fun mid _ => rfl⟩
      · exact ⟨⟨[], by simp⟩, fun h => h, fun mid _ => rfl⟩
  | badJSON =>
    unfold expand_batch_and_save
    split
    · exact ⟨⟨[], by simp⟩, fun h => h, fun mid _ => rfl⟩
    · split
      · exact ⟨⟨[], by simp⟩, fun h => h, fun mid _ => rfl⟩
      · exact ⟨⟨[], by simp⟩, fun h => h, fun mid _ => rfl⟩
  | parsed exps model =>
    unfold expand_batch_and_save
    split
    · exact ⟨⟨[], by simp⟩, fun h => h, fun mid _ => rfl⟩
    · split
      · exact ⟨⟨[], by simp⟩, fun h => h, fun mid _ => rfl⟩
      · exact ⟨saveExpansion_foldl_grows model exps (0, store),
               fun h => saveExpansion_foldl_nodup model exps (0, store) h,
               fun mid h => saveExpansion_foldl_existing model mid exps (0, store) h⟩

theorem expansion_write_once_witness :
    (expand_batch_and_save [⟨"1", some "hi"⟩]
        (LLMResult.parsed [⟨some "1", some "new text"⟩] "m")
        [⟨"1", "old text", "m0"⟩]).2.filter (fun e => e.message_id == "1")
      = [⟨"1", "old text", "m0"⟩] := by
  have h := (expansion_write_once [⟨"1", some "hi"⟩]
    (LLMResult.parsed [⟨some "1", some "new text"⟩] "m")
    [⟨"1", "old text", "m0"⟩]).2.2 "1" (by decide)
  rw [h]
  decide

lemma batchWindowsAux_head (n bs start : Nat) :
    batchWindowsAux n bs start = []
    ∨ ∃ e rest, batchWindowsAux n bs start = (start, e) :: rest := by
  unfold batchWindowsAux
  split
  · split
    · exact Or.inl rfl
    · split
      · exact Or.inr ⟨_, [], rfl⟩
      · exact Or.inr ⟨_, _, rfl⟩
  · exact Or.inl rfl

lemma batchWindowsAux_chain (n bs : Nat) :
    ∀ start, (batchWindowsAux n bs start).Chain'
      (fun w v => w.1 < v.1
        ∧ v.1 = (if w.2 - overlapSize bs = 0 then w.2 else w.2 - overlapSize bs)) := by
  have H : ∀ m start, n - start ≤ m → (batchWindowsAux n bs start).Chain'
      (fun w v => w.1 < v.1
        ∧ v.1 = (if w.2 - overlapSize bs = 0 then w.2 else w.2 - overlapSize bs)) := by
    intro m
    induction m with
    | zero =>
      intro start hm
      unfold batchWindowsAux
      rw [dif_neg (by omega)]
      exact List.chain'_nil
    | succ m ih =>
      intro start hm
      unfold batchWindowsAux
      split
      · split
        · exact List.chain'_nil
        · split
          · exact List.chain'_singleton _
          · rename_i h1 he hn
            have he' : start < min (start + bs) n := Nat.lt_of_not_le he
            have hn' : min (start + bs) n < n := Nat.lt_of_not_le hn
            have hbs : 1 ≤ bs := by
              rcases Nat.eq_zero_or_pos bs with hb | hb
              · exfalso
                have h2 : min (start + bs) n ≤ start := by
                  simp [hb]
                omega
              · exact hb
            have hov : overlapSize bs < bs :=
              lt_of_le_of_lt (Nat.min_le_right _ _) (Nat.div_lt_self (by omega) (by omega))
            have hee : min (start + bs) n = start + bs := by
              by_cases hc : start + bs ≤ n
              · exact Nat.min_eq_left hc
              · exfalso
                have h2 : min (start + bs) n = n := Nat.min_eq_right (le_of_not_le hc)
                omega
            have hlt : start <
                (if min (start + bs) n - overlapSize bs = 0 then min (start + bs) n
                 else min (start + bs) n - overlapSize bs) := by
              split <;> omega
            apply List.chain'_cons'.mpr
            constructor
            · intro v hv
              rcases batchWindowsAux_head n bs
                  (if min (start + bs) n - overlapSize bs = 0 then min (start + bs) n
                   else min (start + bs) n - overlapSize bs) with hnil | ⟨e2, rest, heq⟩
              · rw [hnil] at hv
                simp at hv
              · rw [heq] at hv
                simp only [List.head?_cons, Option.mem_def, Option.some.injEq] at hv
                subst hv
                exact ⟨hlt, rfl⟩
            · apply ih
              rw [hee]
              by_cases h0 : start + bs - overlapSize bs = 0
              · rw [if_pos h0]
                omega
              · rw [if_neg h0]
                omega
      · exact List.chain'_nil
  intro start
  exact H (n - start) start le_rfl

/-- C5: the orchestrator processes 105 pending messages with batch size 50
and overlap min(10, 50/5) = 10 in the windows [0,50), [40,90), [80,105),
which cover every pending index; in general consecutive windows advance by
`next_start = batch_end - overlap` with the nonpositive clamp, and the start
index strictly increases, never regressing. -/
theorem batch_overlap_windows :
    batchWindows 105 50 = [(0, 50), (40, 90), (80, 105)]
    ∧ (∀ i, i < 105 → ∃ w ∈ batchWindows 105 50, w.1 ≤ i ∧ i < w.2)
    ∧ (∀ n bs, (batchWindows n bs).Chain'
        (fun w v => w.1 < v.1
          ∧ v.1 = (if w.2 - overlapSize bs = 0 then w.2 else w.2 - overlapSize bs))) := by
  have hconc : batchWindows 105 50 = [(0, 50), (40, 90), (80, 105)] := by
    unfold batchWindows
    rw [batchWindowsAux, batchWindowsAux, batchWindowsAux]
    norm_num [overlapSize]
  refine ⟨hconc, ?_, ?_⟩
  · rw [hconc]
    decide
  · intro n bs
    exact batchWindowsAux_chain n bs 0

theorem batch_overlap_windows_witness :
    ∃ w ∈ batchWindows 105 50, w.1 ≤ 64 ∧ 64 < w.2 :=
  batch_overlap_windows.2.1 64 (by decide)

/-- C7: when the search step returns zero messages, process_query returns
status no_results with the fixed fallback answer text and no source messages,
and the answer-generation completion capability is invoked zero times. -/
theorem no_results_short_circuit :
    ∀ (debug : Bool) (promptRes : Except String Unit) (llmRes : Except String String)
      (sr : SearchToolOutput), sr.messages = [] →
      process_query debug (Except.ok sr) promptRes llmRes
        = ({ answer_text := "I couldn't find any relevant messages to answer your question."
             source_messages := []
             status := "no_results"
             rewritten_query := none }, 0) := by
  intro debug promptRes llmRes sr hempty
  have hsr : sr.messages.isEmpty = true := by rw [hempty]; rfl
  simp [process_query, hsr, noResultsResponse]

theorem no_results_short_circuit_witness :
    process_query false (Except.ok
        { messages := [], total_found := 0, messages_with_scores := none,
          rewritten_query := none })
        (Except.ok ()) (Except.error "boom")
      = ({ answer_text := "I couldn't find any relevant messages to answer your question."
           source_messages := []
           status := "no_results"
           rewritten_query := none }, 0) :=
  no_results_short_circuit false (Except.ok ()) (Except.error "boom")
    { messages := [], total_found := 0, messages_with_scores := none, rewritten_query := none }
    rfl

/-- C8: process_query always returns a structured response with status
success, no_results or error; an exception raised in the search step, the
prompt-construction step or the completion step is caught and converted to
the error response embedding the exception message, never propagated. -/
theorem agent_never_throws :
    ∀ (debug : Bool) (searchRes : Except String SearchToolOutput)
      (promptRes : Except String Unit) (llmRes : Except String String),
      ((process_query debug searchRes promptRes llmRes).1.status = "success"
        ∨ (process_query debug searchRes promptRes llmRes).1.status = "no_results"
        ∨ (process_query debug searchRes promptRes llmRes).1.status = "error")
      ∧ (∀ e, searchRes = Except.error e →
          (process_query debug searchRes promptRes llmRes).1 = errorResponse e)
      ∧ (∀ e sr, searchRes = Except.ok sr → sr.messages.isEmpty = false →
          promptRes = Except.error e →
          (process_query debug searchRes promptRes llmRes).1 = errorResponse e)
      ∧ (∀ e sr, searchRes = Except.ok sr → sr.messages.isEmpty = false →
          promptRes = Except.ok () → llmRes = Except.error e →
          (process_query debug searchRes promptRes llmRes).1 = errorResponse e) := by
  intro debug searchRes promptRes llmRes
  refine ⟨?_, ?_, ?_, ?_⟩
  · cases searchRes with
    | error e => right; right; rfl
    | ok sr =>
      by_cases hsr : sr.messages.isEmpty
      · right; left
        simp [process_query, hsr]
        rfl
      · cases promptRes with
        | error e =>
          right; right
          simp [process_query, hsr]
          rfl
        | ok u =>
          cases llmRes with
          | error e =>
            right; right
            simp [process_query, hsr]
            rfl
          | ok content =>
            left
            simp [process_query, hsr]
  · intro e he
    subst he
    rfl
  · intro e sr hok hne hperr
    subst hok
    subst hperr
    simp [process_query, hne]
  · intro e sr hok hne hpok hlerr
    subst hok
    subst hpok
    subst hlerr
    simp [process_query, hne]

theorem agent_never_throws_witness :
    (process_query false (Except.error "search exploded")
        (Except.ok ()) (Except.ok "answer")).1 = errorResponse "search exploded" :=
  (agent_never_throws false (Except.error "search exploded")
      (Except.ok ()) (Except.ok "answer")).2.1 "search exploded" rfl

end Telequery
